import Mathlib

/-!
Verification development for the ECS (entity-component-system) core of the
stabby2d repository (`include/ECS/ECS.hpp`).

The C++ header is shallowly embedded as follows:

* `Signature` (a `std::bitset<128>`) is a natural number; `Signature.setBit`
  and `Signature.test` mirror `std::bitset::set(pos, value)` and
  `std::bitset::test(pos)`, which throw `std::out_of_range` for `pos >= 128`
  (an aborted execution is represented by `none`).
* `Entity` holds a `uint64_t` identifier (a natural number reduced modulo
  `2 ^ 64` at construction).  The header declares
  `unsigned int Entity::GetId() const` while the body lives in
  `src/ECS/ECS.cpp`, which is not among the provided sources.
* `Pool α` embeds `Pool<T>` (a `std::vector<T>`); `Pool.Set` mirrors the
  unchecked `data[index] = object`, whose out-of-bounds case is undefined
  behaviour in C++ and is represented here by `none`.
* `Registry α` embeds `Registry` with a single component value type `α`
  (every `Pool<T>` of the C++ template family is modelled at the same value
  type; the claims under study never mix values of two component types in
  one pool).  Component-type identifiers, produced in C++ by
  `Component<T>::GetId()`, are passed to the registry operations as natural
  numbers; the identifier assignment itself is embedded separately as
  `IdState.GetId`.
* `std::unordered_map<std::type_index, std::shared_ptr<System>>` is an
  association list from type tags (naturals) to `Option System`; a `none`
  value is a null `shared_ptr`.
* Vector indexing `v[i]` that the source performs without a bounds check is
  modelled as an `Option`; a `none` result marks an execution that is
  undefined behaviour in the C++ source.
-/

/-- `constexpr uint8_t MAX_COMPONENTS = 128;` from the header. -/
def MAX_COMPONENTS : Nat := 128

/-- `using Signature = std::bitset<MAX_COMPONENTS>;` a signature is the
natural number whose binary digits are the bits of the bitset. -/
abbrev Signature := Nat

/-- Clearing bit `pos` of a natural number, written arithmetically (when the
bit is set, subtracting `2 ^ pos` clears exactly that bit). -/
def Signature.clearBit (s : Signature) (pos : Nat) : Signature :=
  if s.testBit pos then s - 2 ^ pos else s

/-- `std::bitset::set(pos, value)`: sets bit `pos` to `value`; positions at or
beyond the bitset width throw `std::out_of_range` (modelled as `none`). -/
def Signature.setBit (s : Signature) (pos : Nat) (value : Bool) : Option Signature :=
  if pos < MAX_COMPONENTS then
    some (if value then s ||| 2 ^ pos else Signature.clearBit s pos)
  else none

/-- `std::bitset::test(pos)`: reads bit `pos`; positions at or beyond the
bitset width throw `std::out_of_range` (modelled as `none`). -/
def Signature.test (s : Signature) (pos : Nat) : Option Bool :=
  if pos < MAX_COMPONENTS then some (s.testBit pos) else none

/-- The system-matching comparison used by the spec and by
`Registry::AddEntityToSystems`: `(entitySig & systemSig) == systemSig`. -/
def Signature.matchesSig (entitySig systemSig : Signature) : Bool :=
  (entitySig &&& systemSig) == systemSig

/-- `class Entity { uint64_t id; ... }`. -/
structure Entity where
  id : Nat
deriving DecidableEq

/-- `explicit Entity(uint64_t entityId) : id(entityId) {}` — construction
reduces the initialiser modulo the `uint64_t` width. -/
def Entity.make (entityId : Nat) : Entity :=
  ⟨entityId % 2 ^ 64⟩

/-- Modelled from the spec: the body of `Entity::GetId` is defined in
`src/ECS/ECS.cpp`, which is not among the provided sources.  The header in
`src` declares the member as `unsigned int GetId() const` over the
`uint64_t id` field, and the spec describes an Entity as "an opaque numeric
identifier"; returning the stored identifier therefore converts it to
`unsigned int`, i.e. reduces it modulo `2 ^ 32`. -/
def Entity.GetId (e : Entity) : Nat :=
  e.id % 2 ^ 32

/-- `bool operator==(const Entity& other) const { return id == other.id; }` -/
def Entity.eqOp (a b : Entity) : Bool := a.id == b.id

/-- `bool operator<(const Entity& other) const { return id < other.id; }` -/
def Entity.ltOp (a b : Entity) : Bool := decide (a.id < b.id)

/-- `bool operator>(const Entity& other) const { return id > other.id; }` -/
def Entity.gtOp (a b : Entity) : Bool := decide (a.id > b.id)

/-- The state behind `Component<T>::GetId`: the shared counter
`inline static unsigned int nextId` of `IComponent`, together with the
per-type `static const auto componentId` constants that have already been
initialised, recorded as an association list from a type tag (one natural
number per distinct template argument `T`) to the identifier assigned to it,
in assignment order.  `nextId` is a C++ `unsigned int`, held as a natural
below `2 ^ 32` (the increment in `GetId` wraps modulo `2 ^ 32`). -/
structure IdState where
  nextId : Nat
  assigned : List (Nat × Nat)
deriving DecidableEq

/-- The state at program start: no per-type constant initialised yet and the
zero-initialised shared counter. -/
def IdState.init : IdState := ⟨0, []⟩

/-- `Component<T>::GetId()`: `static const auto componentId = nextId++;` —
the first call for a type tag latches the current counter value and
post-increments the shared counter, the increment wrapping modulo `2 ^ 32`
as the source's 32-bit unsigned arithmetic does; later calls return the
latched value. -/
def IdState.GetId (s : IdState) (t : Nat) : IdState × Nat :=
  match s.assigned.find? (fun p => p.1 == t) with
  | some p => (s, p.2)
  | none => (⟨(s.nextId + 1) % 2 ^ 32, s.assigned ++ [(t, s.nextId)]⟩, s.nextId)

/-- `std::vector::resize(n)`: the first `n` elements are kept (the vector is
truncated when `n` is below the current size) and any new elements are
value-initialised to `d`. -/
def resizeList {α : Type} (l : List α) (n : Nat) (d : α) : List α :=
  l.take n ++ List.replicate (n - l.length) d

/-- `template <typename T> class Pool : public IPool { std::vector<T> data; }`. -/
structure Pool (α : Type) where
  data : List α
deriving DecidableEq

/-- `explicit Pool(uint16_t size = 64) { data.resize(size); }`. -/
def Pool.create {α : Type} [Inhabited α] (size : Nat) : Pool α :=
  ⟨List.replicate size default⟩

/-- `auto Size() const -> size_t { return data.size(); }` -/
def Pool.Size {α : Type} (p : Pool α) : Nat := p.data.length

/-- `auto IsEmpty() const { return data.empty(); }` -/
def Pool.IsEmpty {α : Type} (p : Pool α) : Bool := p.data.isEmpty

/-- `auto Resize(size_t n) const -> void { data.resize(n); }` -/
def Pool.Resize {α : Type} [Inhabited α] (p : Pool α) (n : Nat) : Pool α :=
  ⟨resizeList p.data n default⟩

/-- `auto Clear() -> void { data.clear(); }` -/
def Pool.Clear {α : Type} (_ : Pool α) : Pool α := ⟨[]⟩

/-- `auto Add(T& object) -> void { data.emplace_back(object); }` -/
def Pool.Add {α : Type} (p : Pool α) (v : α) : Pool α := ⟨p.data ++ [v]⟩

/-- `auto Set(size_t index, T& object) -> void { data[index] = object; }` —
the indexing is unchecked, so an out-of-range index is undefined behaviour
(`none`). -/
def Pool.Set {α : Type} (p : Pool α) (index : Nat) (v : α) : Option (Pool α) :=
  if index < p.data.length then some ⟨p.data.set index v⟩ else none

/-- `auto Get(size_t index) -> T& { return data[index]; }` — unchecked
indexing, out-of-range is undefined behaviour (`none`). -/
def Pool.Get {α : Type} (p : Pool α) (index : Nat) : Option α :=
  p.data[index]?

/-- `class System { Signature componentSignature; std::vector<Entity> entities; }`. -/
structure System where
  componentSignature : Signature
  entities : List Entity
deriving DecidableEq

/-- A default-constructed `System`: empty signature bitset, empty entity
vector. -/
def System.init : System := ⟨0, []⟩

/-- `System::RequireComponent<TComponent>()` (header, lines 170-174): sets the
bit of the resolved component identifier in the required signature. -/
def System.RequireComponent (s : System) (componentId : Nat) : Option System :=
  (Signature.setBit s.componentSignature componentId true).map
    (fun sig => { s with componentSignature := sig })

/-- Modelled from the spec: `System::AddEntity` is defined in
`src/ECS/ECS.cpp`, which is not among the provided sources.  Per the spec it
"adds entity to the live matching set (duplicates are not prevented by this
call itself)"; the live set is the `std::vector<Entity> entities`, so the
entity is appended. -/
def System.AddEntity (s : System) (e : Entity) : System :=
  { s with entities := s.entities ++ [e] }

/-- Modelled from the spec: `System::RemoveEntity` is defined in
`src/ECS/ECS.cpp`, which is not among the provided sources.  Per the spec it
"removes by identity comparison" (`operator==`, full 64-bit identifiers). -/
def System.RemoveEntity (s : System) (e : Entity) : System :=
  { s with entities := s.entities.filter (fun x => !(Entity.eqOp x e)) }

/-- Modelled from the spec: `System::GetEntities` is defined in
`src/ECS/ECS.cpp`, which is not among the provided sources.  Per the spec it
"returns a snapshot (copy) of the currently matching entities". -/
def System.GetEntities (s : System) : List Entity := s.entities

/-- `Signature const& GetComponentSignature() const;` read-only accessor. -/
def System.GetComponentSignature (s : System) : Signature := s.componentSignature

/-- `systems[std::type_index(typeid(TSystem))] = value` on the
`std::unordered_map`: replace the mapped value if the key is present,
otherwise insert a new entry. -/
def upsertSystem : List (Nat × Option System) → Nat → Option System → List (Nat × Option System)
  | [], k, v => [(k, v)]
  | p :: rest, k, v => if p.1 == k then (k, v) :: rest else p :: upsertSystem rest k v

/-- Number of entries of the systems map whose key is `k` (the map contains
"exactly one instance" for a type when this is `1`). -/
def countKey (m : List (Nat × Option System)) (k : Nat) : Nat :=
  m.countP (fun p => p.1 == k)

/-- Lookup in the systems map: `some v` when key `k` is mapped to the
`shared_ptr` `v` (`v = none` being a null pointer), `none` when the key is
absent. -/
def lookupSystem (m : List (Nat × Option System)) (k : Nat) : Option (Option System) :=
  (m.find? (fun p => p.1 == k)).map (fun p => p.2)

/-- `class Registry` (header, lines 132-168), with component values at type
`α`. -/
structure Registry (α : Type) where
  numEntities : Nat
  componentPools : List (Option (Pool α))
  entityComponentSignatures : List Signature
  systems : List (Nat × Option System)
  entitiesToBeAdded : List Entity
  entitiesToBeKilled : List Entity
deriving DecidableEq

/-- A default-constructed `Registry`: `numEntities = 0` and every container
empty. -/
def Registry.init {α : Type} : Registry α := ⟨0, [], [], [], [], []⟩

/-- Modelled from the spec: `Registry::CreateEntity` is defined in
`src/ECS/ECS.cpp`, which is not among the provided sources.  Per the spec it
"increments the entity counter, issues an Entity with the new identifier,
ensures the signature table has a slot for it, enqueues the entity into the
to-be-added pending set, returns the Entity immediately", identifiers being
"assigned monotonically increasing from a counter owned by the Registry". -/
def Registry.CreateEntity {α : Type} (r : Registry α) : Registry α × Entity :=
  let entityId := r.numEntities
  let e := Entity.make entityId
  ({ r with
      numEntities := r.numEntities + 1,
      entityComponentSignatures :=
        if r.entityComponentSignatures.length < entityId + 1 then
          resizeList r.entityComponentSignatures (entityId + 1) 0
        else r.entityComponentSignatures,
      entitiesToBeAdded := r.entitiesToBeAdded ++ [e] }, e)

/-- First stage of `AddComponent` (header, lines 181-184): grow the
`componentPools` vector to `componentId + 1` slots (null-filled) when the
component identifier does not fit. -/
def Registry.poolsGrown {α : Type} (r : Registry α) (componentId : Nat) :
    List (Option (Pool α)) :=
  if r.componentPools.length ≤ componentId then
    resizeList r.componentPools (componentId + 1) none
  else r.componentPools

/-- Second stage of `AddComponent` (header, lines 186-189): create a `Pool`
for the component type (default capacity) when the slot holds no pool yet. -/
def Registry.poolsEnsured {α : Type} [Inhabited α] (r : Registry α) (componentId : Nat) :
    List (Option (Pool α)) :=
  if ((r.poolsGrown componentId).getD componentId none).isNone then
    (r.poolsGrown componentId).set componentId (some (Pool.create 64))
  else r.poolsGrown componentId

/-- The signature table after `AddComponent`'s
`entityComponentSignatures.resize(componentPools.size())` (header, line 201),
given the final pool table `pools2`. -/
def Registry.sigsResized {α : Type} (r : Registry α) (pools2 : List (Option (Pool α))) :
    List Signature :=
  resizeList r.entityComponentSignatures pools2.length 0

/-- `Registry::AddComponent<TComponent>(entity, args...)` (header, lines
176-205), with the component identifier `Component<TComponent>::GetId()`
passed in as `componentId` and the constructed value as `v`:
grow `componentPools` to `componentId + 1` slots when needed, create the pool
(default capacity 64) when absent, resize that pool to `numEntities` when
`entityId` is not below its size, `Set` the value at `entityId`, resize
`entityComponentSignatures` to `componentPools.size()`, and set bit
`componentId` of `entityComponentSignatures[entityId]`.  The unchecked
vector accesses make the out-of-range cases undefined behaviour (`none`). -/
def Registry.AddComponent {α : Type} [Inhabited α] (r : Registry α)
    (componentId : Nat) (entity : Entity) (v : α) : Option (Registry α) :=
  match (r.poolsEnsured componentId).getD componentId none with
  | none => none
  | some pool0 =>
    match (if pool0.Size ≤ entity.GetId then pool0.Resize r.numEntities else pool0).Set
        entity.GetId v with
    | none => none
    | some pool2 =>
      if entity.GetId <
          (r.sigsResized ((r.poolsEnsured componentId).set componentId (some pool2))).length then
        match Signature.setBit
            ((r.sigsResized ((r.poolsEnsured componentId).set componentId (some pool2))).getD
              entity.GetId 0) componentId true with
        | none => none
        | some newSig =>
          some { r with
                  componentPools := (r.poolsEnsured componentId).set componentId (some pool2),
                  entityComponentSignatures :=
                    (r.sigsResized
                      ((r.poolsEnsured componentId).set componentId (some pool2))).set
                      entity.GetId newSig }
      else none

/-- `Registry::RemoveComponent<TComponent>(entity)` (header, lines 207-213):
`entityComponentSignatures[entityId].set(componentId, false)`.  The unchecked
vector access makes an out-of-range `entityId` undefined behaviour (`none`);
the bitset `set` throws for `componentId` at or beyond the width (`none`). -/
def Registry.RemoveComponent {α : Type} (r : Registry α)
    (componentId : Nat) (entity : Entity) : Option (Registry α) :=
  let entityId := entity.GetId
  if entityId < r.entityComponentSignatures.length then
    (Signature.setBit (r.entityComponentSignatures.getD entityId 0) componentId false).map
      (fun s => { r with
                   entityComponentSignatures :=
                     r.entityComponentSignatures.set entityId s })
  else none

/-- `Registry::HasComponent<TComponent>(entity)` (header, lines 215-221):
`entityComponentSignatures[entityId].test(componentId)`, with the same
undefined-behaviour cases as `RemoveComponent`. -/
def Registry.HasComponent {α : Type} (r : Registry α)
    (componentId : Nat) (entity : Entity) : Option Bool :=
  let entityId := entity.GetId
  if entityId < r.entityComponentSignatures.length then
    Signature.test (r.entityComponentSignatures.getD entityId 0) componentId
  else none

/-- `Registry::AddSystem<TSystem>(args...)` (header, lines 223-226):
`systems[std::type_index(typeid(TSystem))] = std::make_shared<TSystem>(...)`,
with the type index passed in as `tid` and the freshly constructed instance
as `s`. -/
def Registry.AddSystem {α : Type} (r : Registry α) (tid : Nat) (s : System) : Registry α :=
  { r with systems := upsertSystem r.systems tid (some s) }

/-- `Registry::RemoveSystem<TSystem>()` (header, lines 228-233):
`std::erase_if(systems, key == type_index(typeid(TSystem)))`. -/
def Registry.RemoveSystem {α : Type} (r : Registry α) (tid : Nat) : Registry α :=
  { r with systems := r.systems.filter (fun p => !(p.1 == tid)) }

/-- `Registry::HasSystem<TSystem>()` (header, lines 235-238):
`systems.count(type_index(typeid(TSystem)))` used as a boolean. -/
def Registry.HasSystem {α : Type} (r : Registry α) (tid : Nat) : Bool :=
  r.systems.any (fun p => p.1 == tid)

/-- `Registry::GetSystem<TSystem>()` (header, lines 240-243):
`*systems[type_index(typeid(TSystem))]` — `operator[]` on the map inserts a
value-initialised (null) `shared_ptr` when the key is absent and returns a
reference to the mapped pointer, which is then dereferenced.  The result
component is the pointed-to system, `none` when the mapped pointer is null
(dereferencing a null `shared_ptr` is invalid). -/
def Registry.GetSystem {α : Type} (r : Registry α) (tid : Nat) :
    Registry α × Option System :=
  match r.systems.find? (fun p => p.1 == tid) with
  | some p => (r, p.2)
  | none => ({ r with systems := r.systems ++ [(tid, none)] }, none)

/-- Modelled from the spec: `Registry::AddEntityToSystems` is defined in
`src/ECS/ECS.cpp`, which is not among the provided sources.  Per the spec,
"for every registered system, tests whether the entity's current signature is
a superset of the system's required signature; if so, adds the entity to that
system's live set", the comparison being
`(entitySignature & systemSignature) == systemSignature`.  Entries mapped to
a null pointer (never produced by `AddSystem`) are left untouched. -/
def Registry.AddEntityToSystems {α : Type} (r : Registry α) (e : Entity) : Registry α :=
  let sig := r.entityComponentSignatures.getD e.GetId 0
  { r with
      systems := r.systems.map (fun p =>
        match p.2 with
        | some s =>
            if Signature.matchesSig sig s.GetComponentSignature then
              (p.1, some (s.AddEntity e))
            else p
        | none => p) }

/-- Modelled from the spec: `Registry::Update` is defined in
`src/ECS/ECS.cpp`, which is not among the provided sources.  Per the spec,
"for every entity in the to-be-added pending set, runs `AddEntityToSystems`
and clears the pending set"; the flush of the to-be-killed set "exists as a
symmetric mechanism" but "the reference implementation leaves it a stub", so
`entitiesToBeKilled` is untouched. -/
def Registry.Update {α : Type} (r : Registry α) : Registry α :=
  let r1 := r.entitiesToBeAdded.foldl Registry.AddEntityToSystems r
  { r1 with entitiesToBeAdded := [] }

/-- The live entity list of the system registered under type tag `tid`
(empty when the tag is absent or mapped to a null pointer). -/
def Registry.systemEntities {α : Type} (r : Registry α) (tid : Nat) : List Entity :=
  match lookupSystem r.systems tid with
  | some (some s) => s.GetEntities
  | _ => []

/-- Running a sequence of `Component<T>::GetId()` first-and-repeat calls
(one type tag per call), threading the shared static state. -/
def IdState.runFrom (s : IdState) (L : List Nat) : IdState :=
  L.foldl (fun a t => (a.GetId t).1) s

/-- The static state after a call sequence `L`, starting at program start. -/
def IdState.run (L : List Nat) : IdState :=
  IdState.runFrom IdState.init L

/-- The identifier that `Component<T>::GetId()` returns for type tag `t`
when called after the call sequence `L`. -/
def idAfter (L : List Nat) (t : Nat) : Nat :=
  ((IdState.run L).GetId t).2

/-- Appends to `F` the tags of `L` that are not yet present, in order of
first occurrence. -/
def extendFirsts (F : List Nat) (L : List Nat) : List Nat :=
  L.foldl (fun acc t => if t ∈ acc then acc else acc ++ [t]) F

/-- The distinct type tags of `L` in first-call order. -/
def firstCalls (L : List Nat) : List Nat :=
  extendFirsts [] L

/-- The static id-assignment state `s` realises the first-call list `F`:
the shared counter equals the number of assigned types and each assigned
type maps to its first-call rank. -/
def GoodIdState (s : IdState) (F : List Nat) : Prop :=
  s.nextId = F.length ∧
  ∀ t : Nat, s.assigned.find? (fun p => p.1 == t) =
    if t ∈ F then some (t, F.indexOf t) else none

/-- One call against the `Registry` public interface, with component type
identifiers and entity identifiers given as naturals and component values at
type `Nat`. -/
inductive RegOp where
  | create : RegOp
  | add (componentId entityId v : Nat) : RegOp
  | remove (componentId entityId : Nat) : RegOp
  | has (componentId entityId : Nat) : RegOp
deriving DecidableEq

/-- Runs one `Registry` call; `none` marks an execution that is undefined
behaviour in the C++ source. -/
def runOp (r : Registry Nat) : RegOp → Option (Registry Nat)
  | RegOp.create => some r.CreateEntity.1
  | RegOp.add cid eid v => r.AddComponent cid (Entity.make eid) v
  | RegOp.remove cid eid => r.RemoveComponent cid (Entity.make eid)
  | RegOp.has cid eid => (r.HasComponent cid (Entity.make eid)).map (fun _ => r)

/-- Runs a sequence of `Registry` calls. -/
def runOps : Registry Nat → List RegOp → Option (Registry Nat)
  | r, [] => some r
  | r, op :: ops => (runOp r op).bind (fun r1 => runOps r1 ops)

/-- The sizing facts that actually hold of every reachable `Registry` state:
the signature table has at least one slot per component-pool slot, and every
existing pool has at least the default 64 slots. -/
def SizingInv (r : Registry Nat) : Prop :=
  r.componentPools.length ≤ r.entityComponentSignatures.length ∧
  ∀ q : Pool Nat, some q ∈ r.componentPools → 64 ≤ q.Size

/-- A concrete system requiring the component of identifier 0. -/
def c2system : System :=
  (System.init.RequireComponent 0).getD System.init

/-- Scenario: register the system, create one entity, give it component 0,
flush with `Update` (the entity joins the system), then remove component 0.
Afterwards both pending sets are empty and the entity no longer matches. -/
def c2scenario : Option (Registry Nat) := do
  let r := (Registry.init (α := Nat)).AddSystem 0 c2system
  let rE := r.CreateEntity
  let r ← rE.1.AddComponent 0 rE.2 42
  let r := r.Update
  r.RemoveComponent 0 rE.2

/-- The registry state reached by `c2scenario`. -/
def c2reg : Registry Nat :=
  c2scenario.getD Registry.init

/-- A registry with the component-0 system registered and one entity created
but not yet flushed (used to instantiate the amended membership theorem). -/
def c2wreg : Registry Nat :=
  (((Registry.init (α := Nat)).AddSystem 0 c2system).CreateEntity).1

/-- Calls: create 65 entities, then attach component 0 to entity 0. -/
def c3ops : List RegOp :=
  List.replicate 65 RegOp.create ++ [RegOp.add 0 0 7]

/-- The registry state after `c3ops`. -/
def c3reg : Registry Nat :=
  (runOps Registry.init c3ops).getD Registry.init

/-- The component pool of identifier 0 after `c3ops`. -/
def c3pool : Pool Nat :=
  (c3reg.componentPools.getD 0 none).getD (Pool.create 0)

/-- Calls: create one entity, then attach component 0 to it. -/
def c3wOps : List RegOp :=
  [RegOp.create, RegOp.add 0 0 5]

/-- The registry state after `c3wOps`. -/
def c3wReg : Registry Nat :=
  (runOps Registry.init c3wOps).getD Registry.init

/-- A registry with one entity whose signature has bit 0 set. -/
def c5reg : Registry Nat :=
  ⟨1, [], [1], [], [], []⟩

/-- The state `RemoveComponent` (component 0, entity 0) produces from
`c5reg`. -/
def c5out : Registry Nat :=
  (c5reg.RemoveComponent 0 (Entity.make 0)).getD Registry.init

/-- A registry with one created entity (signature table of one slot). -/
def c10reg : Registry Nat :=
  ((Registry.init (α := Nat)).CreateEntity).1

/-- The registry `AddComponent` produces from `c10reg` when handed an entity
with identifier `2 ^ 32`, whose `GetId` collides with entity 0. -/
def c10after : Registry Nat :=
  (Registry.AddComponent c10reg 0 (Entity.make (2 ^ 32)) 42).getD Registry.init

theorem length_resizeList {α : Type} (l : List α) (n : Nat) (d : α) :
    (resizeList l n d).length = n := by
  simp only [resizeList, List.length_append, List.length_take, List.length_replicate]
  omega

theorem testBit_clearBit (s pos j : Nat) :
    (Signature.clearBit s pos).testBit j = if j = pos then false else s.testBit j := by
  by_cases hb : s.testBit pos = true
  · have hq : s / 2 ^ pos % 2 = 1 := by
      have ht := Nat.testBit_to_div_mod (i := pos) (x := s)
      rw [hb] at ht
      exact of_decide_eq_true ht.symm
    have e1 : 2 ^ pos * (s / 2 ^ pos) + s % 2 ^ pos = s := Nat.div_add_mod s (2 ^ pos)
    have e2 : 2 * (s / 2 ^ pos / 2) + s / 2 ^ pos % 2 = s / 2 ^ pos := Nat.div_add_mod _ 2
    have e3 : s / 2 ^ pos / 2 = s / 2 ^ (pos + 1) := by
      rw [Nat.div_div_eq_div_mul, Nat.pow_succ]
    set hi := s / 2 ^ (pos + 1) with hhi
    set lo := s % 2 ^ pos with hlo
    have ha : s / 2 ^ pos = 2 * hi + 1 := by rw [← e3]; omega
    have hlt : lo < 2 ^ pos := Nat.mod_lt _ (Nat.two_pow_pos pos)
    have hQP : 2 ^ (pos + 1) = 2 ^ pos * 2 := Nat.pow_succ 2 pos
    have e4 : s = 2 ^ (pos + 1) * hi + (2 ^ pos + lo) := by
      calc s = 2 ^ pos * (s / 2 ^ pos) + lo := e1.symm
        _ = 2 ^ pos * (2 * hi + 1) + lo := by rw [ha]
        _ = 2 ^ (pos + 1) * hi + (2 ^ pos + lo) := by rw [hQP]; ring
    have hsub : s - 2 ^ pos = 2 ^ (pos + 1) * hi + lo := by omega
    have hb1 : lo < 2 ^ (pos + 1) := by omega
    have hb2 : 2 ^ pos + lo < 2 ^ (pos + 1) := by omega
    unfold Signature.clearBit
    rw [if_pos hb, hsub]
    conv_rhs => rw [e4]
    rw [Nat.testBit_mul_pow_two_add hi hb1 j, Nat.testBit_mul_pow_two_add hi hb2 j]
    by_cases hj : j = pos
    · subst hj
      simp [Nat.testBit_lt_two_pow hlt]
    · rw [if_neg hj]
      by_cases hlt2 : j < pos + 1
      · have hjp : j < pos := by omega
        rw [if_pos hlt2, if_pos hlt2, Nat.testBit_two_pow_add_gt hjp lo]
      · rw [if_neg hlt2, if_neg hlt2]
  · have hb0 : s.testBit pos = false := by
      cases h : s.testBit pos
      · rfl
      · exact absurd h hb
    unfold Signature.clearBit
    rw [hb0]
    simp only [Bool.false_eq_true, if_false]
    by_cases hj : j = pos
    · subst hj; rw [if_pos rfl, hb0]
    · rw [if_neg hj]

theorem testBit_setBitTrue (s pos j : Nat) :
    (s ||| 2 ^ pos).testBit j = if j = pos then true else s.testBit j := by
  rw [Nat.testBit_lor]
  by_cases hj : j = pos
  · subst hj; rw [if_pos rfl, Nat.testBit_two_pow_self, Bool.or_true]
  · rw [if_neg hj, Nat.testBit_two_pow_of_ne (fun h => hj h.symm), Bool.or_false]

theorem getD_set_ne {α : Type} (l : List α) (i j : Nat) (a d : α) (h : i ≠ j) :
    (l.set i a).getD j d = l.getD j d := by
  rw [List.getD_eq_getElem?_getD, List.getD_eq_getElem?_getD, List.getElem?_set_ne h]

theorem getD_set_self {α : Type} (l : List α) (i : Nat) (a d : α) (h : i < l.length) :
    (l.set i a).getD i d = a := by
  rw [List.getD_eq_getElem?_getD, List.getElem?_set_self h]
  rfl

theorem removeComponent_some {α : Type} {r r' : Registry α} {componentId : Nat}
    {e : Entity} (h : r.RemoveComponent componentId e = some r') :
    e.GetId < r.entityComponentSignatures.length ∧ componentId < MAX_COMPONENTS ∧
    r' = { r with
            entityComponentSignatures :=
              r.entityComponentSignatures.set e.GetId
                (Signature.clearBit
                  (r.entityComponentSignatures.getD e.GetId 0) componentId) } := by
  unfold Registry.RemoveComponent at h
  by_cases h1 : e.GetId < r.entityComponentSignatures.length
  · rw [if_pos h1] at h
    unfold Signature.setBit at h
    by_cases h2 : componentId < MAX_COMPONENTS
    · rw [if_pos h2] at h
      simp only [Bool.false_eq_true, if_false, Option.map_some'] at h
      exact ⟨h1, h2, (Option.some.inj h).symm⟩
    · rw [if_neg h2] at h
      simp at h
  · rw [if_neg h1] at h
    simp at h

/-- C5: `RemoveComponent<T>(e)` clears exactly bit `GetId(T)` of `e`'s
signature and changes nothing else — pools, systems, pending sets, the entity
counter, every other entity's signature slot and every other bit of `e`'s
signature are unchanged (stated for every execution of `RemoveComponent`
that is defined behaviour, i.e. returns a state). -/
theorem removeComponent_frame {α : Type} (r : Registry α) (componentId : Nat)
    (e : Entity) (r' : Registry α)
    (h : r.RemoveComponent componentId e = some r') :
    r'.componentPools = r.componentPools ∧
    r'.systems = r.systems ∧
    r'.entitiesToBeAdded = r.entitiesToBeAdded ∧
    r'.entitiesToBeKilled = r.entitiesToBeKilled ∧
    r'.numEntities = r.numEntities ∧
    r'.entityComponentSignatures.length = r.entityComponentSignatures.length ∧
    (∀ j, j ≠ e.GetId →
      r'.entityComponentSignatures.getD j 0 =
        r.entityComponentSignatures.getD j 0) ∧
    (∀ b, b ≠ componentId →
      (r'.entityComponentSignatures.getD e.GetId 0).testBit b =
        (r.entityComponentSignatures.getD e.GetId 0).testBit b) ∧
    (r'.entityComponentSignatures.getD e.GetId 0).testBit componentId = false := by
  obtain ⟨h1, h2, hr⟩ := removeComponent_some h
  subst hr
  refine ⟨rfl, rfl, rfl, rfl, rfl, List.length_set _ _ _, ?_, ?_, ?_⟩
  · intro j hj
    exact getD_set_ne _ _ _ _ _ (fun hq => hj hq.symm)
  · intro b hb
    rw [getD_set_self _ _ _ _ h1, testBit_clearBit, if_neg hb]
  · rw [getD_set_self _ _ _ _ h1, testBit_clearBit, if_pos rfl]

/-- Witness for C5: a concrete defined `RemoveComponent` run, instantiating
the frame theorem. -/
theorem removeComponent_frame_witness :
    (Registry.RemoveComponent c5reg 0 (Entity.make 0) = some c5out) ∧
    (c5out.componentPools = c5reg.componentPools ∧
     c5out.systems = c5reg.systems ∧
     c5out.entitiesToBeAdded = c5reg.entitiesToBeAdded ∧
     c5out.entitiesToBeKilled = c5reg.entitiesToBeKilled ∧
     c5out.numEntities = c5reg.numEntities ∧
     c5out.entityComponentSignatures.length =
       c5reg.entityComponentSignatures.length ∧
     (∀ j, j ≠ (Entity.make 0).GetId →
       c5out.entityComponentSignatures.getD j 0 =
         c5reg.entityComponentSignatures.getD j 0) ∧
     (∀ b, b ≠ 0 →
       (c5out.entityComponentSignatures.getD (Entity.make 0).GetId 0).testBit b =
         (c5reg.entityComponentSignatures.getD (Entity.make 0).GetId 0).testBit b) ∧
     (c5out.entityComponentSignatures.getD (Entity.make 0).GetId 0).testBit 0 = false) :=
  ⟨by decide, removeComponent_frame c5reg 0 (Entity.make 0) c5out (by decide)⟩

/-- C6: when both pending sets are empty, `Update()` leaves every system's
live entity set unchanged, and running `Update()` twice is the same as
running it once. -/
theorem update_noop_when_no_pending {α : Type} (r : Registry α)
    (hAdd : r.entitiesToBeAdded = []) (hKill : r.entitiesToBeKilled = []) :
    (r.Update).systems = r.systems ∧ r.Update.Update = r.Update := by
  have hupd : r.Update = r := by
    cases r with
    | mk n cp sig sys add kill =>
      have hAdd2 : add = [] := hAdd
      subst hAdd2
      rfl
  rw [hupd]
  exact ⟨rfl, hupd⟩

/-- Witness for C6: instantiating the no-pending theorem at the initial
registry. -/
theorem update_noop_when_no_pending_witness :
    ((Registry.init (α := Nat)).entitiesToBeAdded = [] ∧
     (Registry.init (α := Nat)).entitiesToBeKilled = []) ∧
    (((Registry.init (α := Nat)).Update).systems = (Registry.init (α := Nat)).systems ∧
     (Registry.init (α := Nat)).Update.Update = (Registry.init (α := Nat)).Update) :=
  ⟨⟨rfl, rfl⟩, update_noop_when_no_pending (Registry.init (α := Nat)) rfl rfl⟩

/-- C9: calling `GetSystem<T>()` for a type never added inserts a null entry
for `T` into the systems map (the map `operator[]` side effect), after which
`HasSystem<T>()` is true and `RemoveSystem<T>()` finds exactly one entry to
erase, while the dereference inside `GetSystem` hits a null pointer (the
returned system component is `none`). -/
theorem getSystem_absent_inserts_null {α : Type} (r : Registry α) (tid : Nat)
    (h : r.HasSystem tid = false) :
    (r.GetSystem tid).2 = none ∧
    ((r.GetSystem tid).1).HasSystem tid = true ∧
    (((r.GetSystem tid).1).RemoveSystem tid).systems.length + 1 =
      ((r.GetSystem tid).1).systems.length := by
  have hfind : r.systems.find? (fun p => p.1 == tid) = none := by
    rw [List.find?_eq_none]
    intro x hx
    have hx2 := List.any_eq_false.mp h x hx
    simpa using hx2
  have hall : r.systems.filter (fun p => !(p.1 == tid)) = r.systems := by
    rw [List.filter_eq_self]
    intro a ha
    have ha2 := List.any_eq_false.mp h a ha
    simpa using ha2
  have hGet : r.GetSystem tid = ({ r with systems := r.systems ++ [(tid, none)] }, none) := by
    unfold Registry.GetSystem
    rw [hfind]
  rw [hGet]
  refine ⟨rfl, ?_, ?_⟩
  · simp [Registry.HasSystem, List.any_append]
  · simp only [Registry.RemoveSystem, List.filter_append, hall]
    simp

/-- Witness for C9: instantiating the absent-system theorem at the empty
registry. -/
theorem getSystem_absent_inserts_null_witness :
    ((Registry.init (α := Nat)).HasSystem 0 = false) ∧
    (((Registry.init (α := Nat)).GetSystem 0).2 = none ∧
     (((Registry.init (α := Nat)).GetSystem 0).1).HasSystem 0 = true ∧
     ((((Registry.init (α := Nat)).GetSystem 0).1).RemoveSystem 0).systems.length + 1 =
       (((Registry.init (α := Nat)).GetSystem 0).1).systems.length) :=
  ⟨by decide, getSystem_absent_inserts_null (Registry.init (α := Nat)) 0 (by decide)⟩

/-- C1 (code bug): with two entities created by the registry and no component
type yet added, `AddComponent` of component 0 on the second entity resizes
`entityComponentSignatures` down to `componentPools.size() = 1` and then
writes `entityComponentSignatures[1]` out of range — undefined behaviour
(`none`), where the claim expects `HasComponent` to become true with the
value stored. -/
theorem addComponent_oob_signature_write :
    ((((Registry.init (α := Nat)).CreateEntity).1.CreateEntity).1.numEntities = 2) ∧
    ((((Registry.init (α := Nat)).CreateEntity).1.CreateEntity).1.entityComponentSignatures.length = 2) ∧
    ((((Registry.init (α := Nat)).CreateEntity).1.CreateEntity).2 = Entity.make 1) ∧
    Registry.AddComponent ((((Registry.init (α := Nat)).CreateEntity).1.CreateEntity).1)
      0 (Entity.make 1) 42 = none :=
  ⟨by decide, by decide, by decide, by decide⟩

theorem mem_some_resizeList {α : Type} {l : List (Option (Pool α))} {n : Nat}
    {q : Pool α} (h : some q ∈ resizeList l n none) : some q ∈ l := by
  rcases List.mem_append.mp h with h1 | h2
  · exact List.mem_of_mem_take h1
  · exact absurd (List.eq_of_mem_replicate h2) (by simp)

theorem getD_some_mem {α : Type} {l : List (Option (Pool α))} {i : Nat} {q : Pool α}
    (h : l.getD i none = some q) : some q ∈ l := by
  rw [List.getD_eq_getElem?_getD] at h
  cases hg : l[i]? with
  | none => rw [hg] at h; simp at h
  | some x =>
    rw [hg] at h
    simp only [Option.getD_some] at h
    subst h
    exact List.getElem?_mem hg

theorem poolsGrown_mem {α : Type} (r : Registry α) (cid : Nat)
    (hp : ∀ q : Pool α, some q ∈ r.componentPools → 64 ≤ q.Size) :
    ∀ q : Pool α, some q ∈ r.poolsGrown cid → 64 ≤ q.Size := by
  intro q hq
  unfold Registry.poolsGrown at hq
  by_cases hc : r.componentPools.length ≤ cid
  · rw [if_pos hc] at hq
    exact hp q (mem_some_resizeList hq)
  · rw [if_neg hc] at hq
    exact hp q hq

theorem size_pool_create {α : Type} [Inhabited α] (n : Nat) :
    (Pool.create (α := α) n).Size = n := by
  simp [Pool.create, Pool.Size]

theorem poolsEnsured_mem {α : Type} [Inhabited α] (r : Registry α) (cid : Nat)
    (hp : ∀ q : Pool α, some q ∈ r.componentPools → 64 ≤ q.Size) :
    ∀ q : Pool α, some q ∈ r.poolsEnsured cid → 64 ≤ q.Size := by
  intro q hq
  unfold Registry.poolsEnsured at hq
  by_cases hc : ((r.poolsGrown cid).getD cid none).isNone = true
  · rw [if_pos hc] at hq
    rcases List.mem_or_eq_of_mem_set hq with h1 | h2
    · exact poolsGrown_mem r cid hp q h1
    · injection h2 with h3
      rw [h3, size_pool_create]
  · rw [if_neg hc] at hq
    exact poolsGrown_mem r cid hp q hq

theorem pool_set_size {α : Type} {p p' : Pool α} {i : Nat} {v : α}
    (h : p.Set i v = some p') : p'.Size = p.Size ∧ i < p.Size := by
  unfold Pool.Set at h
  by_cases hi : i < p.data.length
  · rw [if_pos hi] at h
    injection h with h2
    subst h2
    exact ⟨List.length_set _ _ _, hi⟩
  · rw [if_neg hi] at h
    exact absurd h (by simp)

theorem size_pool_resize {α : Type} [Inhabited α] (p : Pool α) (n : Nat) :
    (p.Resize n).Size = n := by
  simp [Pool.Resize, Pool.Size, length_resizeList]

theorem addComponent_sizing {r r' : Registry Nat} {cid : Nat} {e : Entity} {v : Nat}
    (hp : ∀ q : Pool Nat, some q ∈ r.componentPools → 64 ≤ q.Size)
    (h : r.AddComponent cid e v = some r') : SizingInv r' := by
  rw [Registry.AddComponent] at h
  cases hp0 : (r.poolsEnsured cid).getD cid none with
  | none => rw [hp0] at h; simp at h
  | some pool0 =>
    rw [hp0] at h
    simp only [] at h
    cases hset : (if pool0.Size ≤ e.GetId then pool0.Resize r.numEntities else pool0).Set
        e.GetId v with
    | none => rw [hset] at h; simp at h
    | some pool2 =>
      rw [hset] at h
      simp only [] at h
      by_cases hlt : e.GetId <
          (r.sigsResized ((r.poolsEnsured cid).set cid (some pool2))).length
      · rw [if_pos hlt] at h
        cases hsig : Signature.setBit
            ((r.sigsResized ((r.poolsEnsured cid).set cid (some pool2))).getD e.GetId 0)
            cid true with
        | none => rw [hsig] at h; simp at h
        | some newSig =>
          rw [hsig] at h
          simp only [Option.some.injEq] at h
          subst h
          constructor
          · simp only [Registry.sigsResized, List.length_set, length_resizeList]
            exact Nat.le_refl _
          · intro q hq
            simp only at hq
            rcases List.mem_or_eq_of_mem_set hq with h1 | h2
            · exact poolsEnsured_mem r cid hp q h1
            · injection h2 with h3
              subst h3
              obtain ⟨hsz, hin⟩ := pool_set_size hset
              by_cases hrs : pool0.Size ≤ e.GetId
              · rw [if_pos hrs] at hsz hin
                rw [size_pool_resize] at hsz hin
                have h64 : 64 ≤ pool0.Size :=
                  poolsEnsured_mem r cid hp pool0 (getD_some_mem hp0)
                omega
              · rw [if_neg hrs] at hsz
                rw [hsz]
                exact poolsEnsured_mem r cid hp pool0 (getD_some_mem hp0)
      · rw [if_neg hlt] at h
        simp at h

theorem createEntity_sizing {r : Registry Nat} (hInv : SizingInv r) :
    SizingInv r.CreateEntity.1 := by
  obtain ⟨h1, h2⟩ := hInv
  constructor
  · by_cases hc : r.entityComponentSignatures.length < r.numEntities + 1
    · simp only [Registry.CreateEntity, if_pos hc, length_resizeList]
      omega
    · simp only [Registry.CreateEntity, if_neg hc]
      exact h1
  · intro q hq
    exact h2 q hq

theorem removeComponent_sizing {r r' : Registry Nat} {cid : Nat} {e : Entity}
    (hInv : SizingInv r) (h : r.RemoveComponent cid e = some r') : SizingInv r' := by
  obtain ⟨h1, h2⟩ := hInv
  obtain ⟨hx, hy, hr⟩ := removeComponent_some h
  subst hr
  exact ⟨by simpa [List.length_set] using h1, fun q hq => h2 q hq⟩

theorem runOps_sizing (ops : List RegOp) :
    ∀ {r r' : Registry Nat}, SizingInv r → runOps r ops = some r' → SizingInv r' := by
  induction ops with
  | nil =>
    intro r r' hInv h
    simp only [runOps] at h
    injection h with h2
    subst h2
    exact hInv
  | cons op ops ih =>
    intro r r' hInv h
    simp only [runOps] at h
    cases hop : runOp r op with
    | none => rw [hop] at h; simp at h
    | some r1 =>
      rw [hop] at h
      simp only [Option.some_bind] at h
      refine ih ?_ h
      cases op with
      | create =>
        unfold runOp at hop
        injection hop with h2
        subst h2
        exact createEntity_sizing hInv
      | add cid eid v => exact addComponent_sizing hInv.2 hop
      | remove cid eid => exact removeComponent_sizing hInv hop
      | has cid eid =>
        unfold runOp at hop
        simp only [] at hop
        cases hb : r.HasComponent cid (Entity.make eid) with
        | none => rw [hb] at hop; simp at hop
        | some b =>
          rw [hb] at hop
          simp only [Option.map_some'] at hop
          injection hop with h2
          subst h2
          exact hInv

set_option maxRecDepth 100000 in
/-- C3 (counterexample): after creating 65 entities and attaching component 0
to entity 0 — a defined execution — the registry has 65 entities but a
signature table of a single slot (no slot for entities 1..64) and a
component pool of 64 slots (smaller than the entity count), refuting both
the "slot for every entity created so far" and the "pools sized to at least
the current entity count" parts of the claim. -/
theorem registry_sizing_claim_cex :
    (runOps Registry.init c3ops).isSome = true ∧
    c3reg.numEntities = 65 ∧
    c3reg.entityComponentSignatures.length = 1 ∧
    c3reg.entityComponentSignatures.length < c3reg.numEntities ∧
    c3pool.Size = 64 ∧
    c3pool.Size < c3reg.numEntities := by
  decide

/-- C3 (amended): after every defined sequence of `CreateEntity`,
`AddComponent`, `RemoveComponent` and `HasComponent` calls, the signature
table has at least one slot per component-pool slot and every existing
component pool has at least the default 64 slots.  (The original claim's
"slot for every entity created so far" and "pools sized to at least the
entity count" do not hold: `AddComponent` resizes the signature table to the
pool count, and pools are created at the fixed default size.) -/
theorem registry_sizing_invariant (ops : List RegOp) (r : Registry Nat)
    (h : runOps Registry.init ops = some r) :
    r.componentPools.length ≤ r.entityComponentSignatures.length ∧
    ∀ q : Pool Nat, some q ∈ r.componentPools → 64 ≤ q.Size := by
  have hInit : SizingInv Registry.init := by
    constructor
    · exact Nat.le_refl 0
    · intro q hq
      simp [Registry.init] at hq
  exact runOps_sizing ops hInit h

/-- Witness for the amended C3: a concrete defined call sequence,
instantiating the sizing theorem. -/
theorem registry_sizing_invariant_witness :
    (runOps Registry.init c3wOps = some c3wReg) ∧
    (c3wReg.componentPools.length ≤ c3wReg.entityComponentSignatures.length ∧
     ∀ q : Pool Nat, some q ∈ c3wReg.componentPools → 64 ≤ q.Size) :=
  ⟨by decide, registry_sizing_invariant c3wOps c3wReg (by decide)⟩

theorem lookup_upsertSystem_self (m : List (Nat × Option System)) (k : Nat)
    (v : Option System) : lookupSystem (upsertSystem m k v) k = some v := by
  induction m with
  | nil => simp [upsertSystem, lookupSystem]
  | cons p rest ih =>
    by_cases hp : p.1 == k
    · simp [upsertSystem, hp, lookupSystem]
    · have hstep : lookupSystem (p :: upsertSystem rest k v) k =
          lookupSystem (upsertSystem rest k v) k := by
        unfold lookupSystem
        rw [List.find?_cons_of_neg (upsertSystem rest k v) hp]
      simp only [upsertSystem, if_neg hp]
      rw [hstep]
      exact ih

theorem countKey_upsertSystem (m : List (Nat × Option System)) (k : Nat)
    (v : Option System) (h : countKey m k ≤ 1) :
    countKey (upsertSystem m k v) k = 1 := by
  induction m with
  | nil => simp [upsertSystem, countKey]
  | cons p rest ih =>
    by_cases hp : p.1 == k
    · have h1 : countKey (p :: rest) k = countKey rest k + 1 :=
        List.countP_cons_of_pos _ _ hp
      have h0 : countKey rest k = 0 := by omega
      simp only [upsertSystem, if_pos hp]
      have h2 : countKey ((k, v) :: rest) k = countKey rest k + 1 :=
        List.countP_cons_of_pos _ _ (by simp)
      omega
    · have h1 : countKey (p :: rest) k = countKey rest k :=
        List.countP_cons_of_neg _ _ hp
      simp only [upsertSystem, if_neg hp]
      have h2 : countKey (p :: upsertSystem rest k v) k =
          countKey (upsertSystem rest k v) k :=
        List.countP_cons_of_neg _ _ hp
      rw [h2]
      exact ih (by omega)

theorem registry_addSystem_fold_systems {α : Type} (l : List System)
    (r : Registry α) (tid : Nat) :
    (l.foldl (fun acc s => acc.AddSystem tid s) r).systems =
      l.foldl (fun m s => upsertSystem m tid (some s)) r.systems := by
  induction l generalizing r with
  | nil => rfl
  | cons s l ih =>
    simp only [List.foldl_cons]
    exact ih (r.AddSystem tid s)

theorem fold_upsert_systems (l : List System) (m : List (Nat × Option System))
    (k : Nat) (x : System) (h : countKey m k ≤ 1) (hx : l.getLast? = some x) :
    countKey (l.foldl (fun m2 s => upsertSystem m2 k (some s)) m) k = 1 ∧
    lookupSystem (l.foldl (fun m2 s => upsertSystem m2 k (some s)) m) k =
      some (some x) := by
  induction l generalizing m with
  | nil => simp at hx
  | cons s l ih =>
    cases l with
    | nil =>
      simp only [List.getLast?_singleton, Option.some.injEq] at hx
      subst hx
      simp only [List.foldl_cons, List.foldl_nil]
      exact ⟨countKey_upsertSystem m k (some s) h, lookup_upsertSystem_self m k (some s)⟩
    | cons s2 l2 =>
      have hx2 : (s2 :: l2).getLast? = some x := by
        rw [← hx]
        exact List.getLast?_cons_cons.symm
      simp only [List.foldl_cons]
      have h2 : countKey (upsertSystem m k (some s)) k ≤ 1 := by
        rw [countKey_upsertSystem m k (some s) h]
      have := ih (upsertSystem m k (some s)) h2 hx2
      simpa using this

/-- C7: after any nonempty sequence of `AddSystem<S>` calls for the same
system type (starting from any systems map that, like every
`std::unordered_map`, holds at most one entry for the type's key), the map
contains exactly one instance keyed by that type, and it is the last
constructed one — each later `AddSystem<S>` replaced the previous
instance. -/
theorem addSystem_unique_instance {α : Type} (r : Registry α) (tid : Nat)
    (l : List System) (x : System) (hm : countKey r.systems tid ≤ 1)
    (hx : l.getLast? = some x) :
    countKey ((l.foldl (fun acc s => acc.AddSystem tid s) r).systems) tid = 1 ∧
    lookupSystem ((l.foldl (fun acc s => acc.AddSystem tid s) r).systems) tid =
      some (some x) := by
  rw [registry_addSystem_fold_systems]
  exact fold_upsert_systems l r.systems tid x hm hx

/-- Witness for C7: adding two instances of the same system type to the empty
registry keeps exactly one entry, mapped to the second instance. -/
theorem addSystem_unique_instance_witness :
    (countKey (Registry.init (α := Nat)).systems 0 ≤ 1 ∧
     ([System.init, c2system].getLast? = some c2system)) ∧
    (countKey (([System.init, c2system].foldl
        (fun acc s => acc.AddSystem 0 s) (Registry.init (α := Nat))).systems) 0 = 1 ∧
     lookupSystem (([System.init, c2system].foldl
        (fun acc s => acc.AddSystem 0 s) (Registry.init (α := Nat))).systems) 0 =
       some (some c2system)) :=
  ⟨⟨by decide, by decide⟩,
   addSystem_unique_instance (Registry.init (α := Nat)) 0 [System.init, c2system]
     c2system (by decide) (by decide)⟩

theorem find?_map_systems (l : List (Nat × Option System))
    (f : (Nat × Option System) → (Nat × Option System))
    (hf : ∀ p, (f p).1 = p.1) (tid : Nat) :
    (l.map f).find? (fun p => p.1 == tid) =
      (l.find? (fun p => p.1 == tid)).map f := by
  induction l with
  | nil => rfl
  | cons p rest ih =>
    by_cases hp : (p.1 == tid) = true
    · have hfp : ((f p).1 == tid) = true := by rw [hf p]; exact hp
      rw [List.map_cons, List.find?_cons_of_pos (rest.map f) hfp,
        List.find?_cons_of_pos rest hp, Option.map_some']
    · have hfp : ¬((f p).1 == tid) = true := by rw [hf p]; exact hp
      rw [List.map_cons, List.find?_cons_of_neg (rest.map f) hfp,
        List.find?_cons_of_neg rest hp]
      exact ih

theorem lookup_addEntityToSystems {α : Type} (r : Registry α) (e : Entity)
    (tid : Nat) (S : System) (hS : lookupSystem r.systems tid = some (some S)) :
    lookupSystem (r.AddEntityToSystems e).systems tid =
      some (some (if Signature.matchesSig
          (r.entityComponentSignatures.getD e.GetId 0) S.GetComponentSignature then
        S.AddEntity e else S)) := by
  unfold Registry.AddEntityToSystems
  unfold lookupSystem at hS ⊢
  rw [find?_map_systems _ _ (fun p => by
    rcases p with ⟨k, v⟩
    cases v
    · rfl
    · simp only []
      split
      · rfl
      · rfl) tid]
  cases hfind : r.systems.find? (fun p => p.1 == tid) with
  | none => rw [hfind] at hS; simp at hS
  | some q =>
    rw [hfind] at hS
    simp only [Option.map_some', Option.some.injEq] at hS
    rcases q with ⟨k, v⟩
    simp only [] at hS
    subst hS
    simp only [Option.map_some', Option.some.injEq]
    split
    · rfl
    · rfl

theorem mem_systemEntities_foldl {α : Type} (l : List Entity) :
    ∀ (r : Registry α) (tid : Nat) (S : System),
      lookupSystem r.systems tid = some (some S) → ∀ e : Entity,
      (e ∈ (l.foldl Registry.AddEntityToSystems r).systemEntities tid ↔
        e ∈ S.entities ∨ (e ∈ l ∧
          Signature.matchesSig (r.entityComponentSignatures.getD e.GetId 0)
            S.GetComponentSignature = true)) := by
  induction l with
  | nil =>
    intro r tid S hS e
    simp only [List.foldl_nil]
    unfold Registry.systemEntities
    rw [hS]
    simp [System.GetEntities]
  | cons e1 l ih =>
    intro r tid S hS e
    simp only [List.foldl_cons]
    have hlook := lookup_addEntityToSystems r e1 tid S hS
    have hmain := ih (r.AddEntityToSystems e1) tid _ hlook e
    have hsig : (r.AddEntityToSystems e1).entityComponentSignatures =
        r.entityComponentSignatures := rfl
    rw [hsig] at hmain
    rw [hmain]
    by_cases hm1 : Signature.matchesSig
        (r.entityComponentSignatures.getD e1.GetId 0) S.GetComponentSignature = true
    · rw [if_pos hm1]
      constructor
      · rintro (he | ⟨hel, hM⟩)
        · rcases List.mem_append.mp he with h1 | h2
          · exact Or.inl h1
          · have he1 : e = e1 := by simpa using h2
            subst he1
            exact Or.inr ⟨List.mem_cons_self e l, hm1⟩
        · exact Or.inr ⟨List.mem_cons_of_mem e1 hel, hM⟩
      · rintro (he | ⟨hel, hM⟩)
        · exact Or.inl (List.mem_append.mpr (Or.inl he))
        · rcases List.mem_cons.mp hel with h1 | h2
          · subst h1
            exact Or.inl (List.mem_append.mpr (Or.inr (by simp)))
          · exact Or.inr ⟨h2, hM⟩
    · rw [if_neg hm1]
      constructor
      · rintro (he | ⟨hel, hM⟩)
        · exact Or.inl he
        · exact Or.inr ⟨List.mem_cons_of_mem e1 hel, hM⟩
      · rintro (he | ⟨hel, hM⟩)
        · exact Or.inl he
        · rcases List.mem_cons.mp hel with h1 | h2
          · subst h1
            exact absurd hM hm1
          · exact Or.inr ⟨h2, hM⟩

/-- C2 (amended): for a registered system with required signature `R`, an
entity appears in `S.GetEntities()` after `Update()` ran exactly when it
already appeared before, or it was in the to-be-added pending set and its
signature satisfied `(entitySignature & R) == R` at the time `Update()` ran.
(The original if-and-only-if fails for entities that were already in the
system and no longer match: `Update` has no removal path.) -/
theorem update_membership {α : Type} (r : Registry α) (tid : Nat) (S : System)
    (hS : lookupSystem r.systems tid = some (some S)) (e : Entity) :
    e ∈ (r.Update).systemEntities tid ↔
      e ∈ r.systemEntities tid ∨
        (e ∈ r.entitiesToBeAdded ∧
          Signature.matchesSig (r.entityComponentSignatures.getD e.GetId 0)
            S.GetComponentSignature = true) := by
  have h1 : (r.Update).systemEntities tid =
      ((r.entitiesToBeAdded.foldl Registry.AddEntityToSystems r)).systemEntities tid := rfl
  have h2 : r.systemEntities tid = S.entities := by
    unfold Registry.systemEntities
    rw [hS]
    rfl
  rw [h1, h2]
  exact mem_systemEntities_foldl r.entitiesToBeAdded r tid S hS e

/-- C2 (counterexample): create an entity with component 0, register a system
requiring component 0, flush with `Update` (the entity joins), then remove
component 0.  At the next `Update()` the entity's signature no longer
satisfies `(sig & R) == R` (here `R = 1`, `sig = 0`), yet the entity still
appears in the system's `GetEntities()` — refuting the claimed
if-and-only-if. -/
theorem update_membership_claim_cex :
    c2scenario.isSome = true ∧
    c2reg.entitiesToBeAdded = [] ∧
    c2reg.entitiesToBeKilled = [] ∧
    lookupSystem c2reg.systems 0 = some (some (System.mk 1 [Entity.make 0])) ∧
    (Entity.make 0) ∈ (c2reg.Update).systemEntities 0 ∧
    Signature.matchesSig
      (c2reg.entityComponentSignatures.getD (Entity.make 0).GetId 0) 1 = false := by
  decide

/-- Witness for the amended C2: a registry with the component-0 system and
one pending entity, instantiating the membership characterisation. -/
theorem update_membership_witness :
    (lookupSystem c2wreg.systems 0 = some (some c2system)) ∧
    ((Entity.make 0) ∈ (c2wreg.Update).systemEntities 0 ↔
      (Entity.make 0) ∈ c2wreg.systemEntities 0 ∨
        ((Entity.make 0) ∈ c2wreg.entitiesToBeAdded ∧
          Signature.matchesSig
            (c2wreg.entityComponentSignatures.getD (Entity.make 0).GetId 0)
            c2system.GetComponentSignature = true)) :=
  ⟨by decide, update_membership c2wreg 0 c2system (by decide) (Entity.make 0)⟩

theorem good_init : GoodIdState IdState.init [] := by
  constructor
  · rfl
  · intro t
    simp [IdState.init]

theorem getId_step_val {s : IdState} {F : List Nat} (h : GoodIdState s F) (t : Nat) :
    (s.GetId t).2 = (if t ∈ F then F.indexOf t else F.length) := by
  obtain ⟨h1, h2⟩ := h
  by_cases ht : t ∈ F
  · rw [if_pos ht]
    have hfind : s.assigned.find? (fun p => p.1 == t) = some (t, F.indexOf t) := by
      rw [h2 t, if_pos ht]
    unfold IdState.GetId
    rw [hfind]
  · rw [if_neg ht]
    have hfind : s.assigned.find? (fun p => p.1 == t) = none := by
      rw [h2 t, if_neg ht]
    unfold IdState.GetId
    rw [hfind]
    exact h1

theorem getId_step_good {s : IdState} {F : List Nat} (h : GoodIdState s F) (t : Nat)
    (hb : t ∉ F → F.length + 1 < 2 ^ 32) :
    GoodIdState (s.GetId t).1 (if t ∈ F then F else F ++ [t]) := by
  obtain ⟨h1, h2⟩ := h
  by_cases ht : t ∈ F
  · rw [if_pos ht]
    have hfind : s.assigned.find? (fun p => p.1 == t) = some (t, F.indexOf t) := by
      rw [h2 t, if_pos ht]
    unfold IdState.GetId
    rw [hfind]
    exact ⟨h1, h2⟩
  · rw [if_neg ht]
    have hfind : s.assigned.find? (fun p => p.1 == t) = none := by
      rw [h2 t, if_neg ht]
    unfold IdState.GetId
    rw [hfind]
    refine ⟨?_, ?_⟩
    · simp only [List.length_append, List.length_singleton]
      rw [h1]
      exact Nat.mod_eq_of_lt (hb ht)
    · intro u
      rw [List.find?_append, h2 u]
      by_cases hu : u ∈ F
      · rw [if_pos hu, if_pos (List.mem_append.mpr (Or.inl hu)), Option.or_some,
          List.indexOf_append_of_mem hu]
      · rw [if_neg hu]
        by_cases hut : u = t
        · subst hut
          have hfind1 : List.find? (fun p => p.1 == u) [(u, s.nextId)] =
              some (u, s.nextId) := by simp
          rw [hfind1]
          have hmem : u ∈ F ++ [u] := List.mem_append.mpr (Or.inr (by simp))
          rw [if_pos hmem, List.indexOf_append_of_not_mem hu,
            List.indexOf_cons_self, h1]
          rfl
        · have hfind2 : List.find? (fun p => p.1 == u) [(t, s.nextId)] = none := by
            simp only [List.find?_eq_none]
            intro x hx
            have hxe : x = (t, s.nextId) := by simpa using hx
            subst hxe
            simp only [beq_iff_eq]
            exact fun hq => hut hq.symm
          rw [hfind2]
          have hnm : ¬u ∈ F ++ [t] := by
            intro hmem
            rcases List.mem_append.mp hmem with hmem1 | hmem2
            · exact hu hmem1
            · exact hut (by simpa using hmem2)
          rw [if_neg hnm]
          rfl

theorem extendFirsts_prefix : ∀ (L F : List Nat), ∃ G, extendFirsts F L = F ++ G := by
  intro L
  induction L with
  | nil => intro F; exact ⟨[], by simp [extendFirsts]⟩
  | cons t L ih =>
    intro F
    rw [show extendFirsts F (t :: L) = extendFirsts (if t ∈ F then F else F ++ [t]) L
        from rfl]
    by_cases htF : t ∈ F
    · rw [if_pos htF]
      exact ih F
    · rw [if_neg htF]
      obtain ⟨G, hG⟩ := ih (F ++ [t])
      exact ⟨t :: G, by rw [hG, List.append_assoc]; rfl⟩

theorem runFrom_good : ∀ (L : List Nat) (s : IdState) (F : List Nat),
    (extendFirsts F L).length < 2 ^ 32 →
    GoodIdState s F → GoodIdState (IdState.runFrom s L) (extendFirsts F L) := by
  intro L
  induction L with
  | nil => intro s F _ h; exact h
  | cons t L ih =>
    intro s F hB h
    have hB2 : (extendFirsts (if t ∈ F then F else F ++ [t]) L).length < 2 ^ 32 := hB
    have hstep : GoodIdState (s.GetId t).1 (if t ∈ F then F else F ++ [t]) := by
      refine getId_step_good h t ?_
      intro ht
      have hB3 := hB2
      rw [if_neg ht] at hB3
      obtain ⟨G, hG⟩ := extendFirsts_prefix L (F ++ [t])
      rw [hG] at hB3
      simp only [List.length_append, List.length_singleton] at hB3
      omega
    exact ih (s.GetId t).1 (if t ∈ F then F else F ++ [t]) hB2 hstep

theorem run_good (L : List Nat) (hL : (firstCalls L).length < 2 ^ 32) :
    GoodIdState (IdState.run L) (firstCalls L) :=
  runFrom_good L IdState.init [] hL good_init

theorem idAfter_eq (L : List Nat) (t : Nat)
    (hL : (firstCalls L).length < 2 ^ 32) :
    idAfter L t =
      if t ∈ firstCalls L then (firstCalls L).indexOf t
      else (firstCalls L).length :=
  getId_step_val (run_good L hL) t

theorem assigned_prefix : ∀ (M : List Nat) (s : IdState),
    ∃ G, (IdState.runFrom s M).assigned = s.assigned ++ G := by
  intro M
  induction M with
  | nil => intro s; exact ⟨[], by simp [IdState.runFrom]⟩
  | cons t M ih =>
    intro s
    obtain ⟨G, hG⟩ := ih (s.GetId t).1
    cases hfind : s.assigned.find? (fun p => p.1 == t) with
    | some p =>
      have ha : (s.GetId t).1.assigned = s.assigned := by
        unfold IdState.GetId
        rw [hfind]
      exact ⟨G, by
        show (IdState.runFrom (s.GetId t).1 M).assigned = s.assigned ++ G
        rw [hG, ha]⟩
    | none =>
      have ha : (s.GetId t).1.assigned = s.assigned ++ [(t, s.nextId)] := by
        unfold IdState.GetId
        rw [hfind]
      exact ⟨(t, s.nextId) :: G, by
        show (IdState.runFrom (s.GetId t).1 M).assigned =
          s.assigned ++ (t, s.nextId) :: G
        rw [hG, ha, List.append_assoc]
        rfl⟩

theorem mem_extendFirsts : ∀ (L F : List Nat) (u : Nat),
    u ∈ extendFirsts F L ↔ u ∈ F ∨ u ∈ L := by
  intro L
  induction L with
  | nil =>
    intro F u
    simp [extendFirsts]
  | cons t L ih =>
    intro F u
    rw [show extendFirsts F (t :: L) = extendFirsts (if t ∈ F then F else F ++ [t]) L
        from rfl, ih]
    by_cases htF : t ∈ F
    · rw [if_pos htF]
      constructor
      · rintro (h | h)
        · exact Or.inl h
        · exact Or.inr (List.mem_cons_of_mem t h)
      · rintro (h | h)
        · exact Or.inl h
        · rcases List.mem_cons.mp h with h1 | h2
          · subst h1; exact Or.inl htF
          · exact Or.inr h2
    · rw [if_neg htF]
      constructor
      · rintro (h | h)
        · rcases List.mem_append.mp h with h1 | h2
          · exact Or.inl h1
          · have hut : u = t := by simpa using h2
            subst hut
            exact Or.inr (List.mem_cons_self u L)
        · exact Or.inr (List.mem_cons_of_mem t h)
      · rintro (h | h)
        · exact Or.inl (List.mem_append.mpr (Or.inl h))
        · rcases List.mem_cons.mp h with h1 | h2
          · subst h1
            exact Or.inl (List.mem_append.mpr (Or.inr (by simp)))
          · exact Or.inr h2

theorem mem_firstCalls (L : List Nat) (u : Nat) : u ∈ firstCalls L ↔ u ∈ L := by
  rw [firstCalls, mem_extendFirsts]
  simp

theorem extendFirsts_append (F L1 L2 : List Nat) :
    extendFirsts F (L1 ++ L2) = extendFirsts (extendFirsts F L1) L2 :=
  List.foldl_append _ _ _ _

theorem indexOf_lt_of_mem_take {u : Nat} : ∀ (L : List Nat) (n : Nat),
    u ∈ L.take n → L.indexOf u < n := by
  intro L
  induction L with
  | nil => intro n h; simp at h
  | cons x L ih =>
    intro n h
    cases n with
    | zero => simp at h
    | succ n =>
      by_cases hx : x = u
      · rw [List.indexOf_cons_eq _ hx]
        omega
      · rw [List.indexOf_cons_ne _ hx]
        rcases List.mem_cons.mp (by simpa using h) with h1 | h2
        · exact absurd h1.symm hx
        · have := ih n h2
          omega

theorem mem_take_self {u : Nat} : ∀ (L : List Nat),
    u ∈ L → u ∈ L.take (L.indexOf u + 1) := by
  intro L
  induction L with
  | nil => intro h; simp at h
  | cons x L ih =>
    intro h
    by_cases hx : x = u
    · rw [List.indexOf_cons_eq _ hx]
      simp [hx]
    · rw [List.indexOf_cons_ne _ hx]
      have hu : u ∈ L := by
        rcases List.mem_cons.mp h with h1 | h2
        · exact absurd h1.symm hx
        · exact h2
      simpa using List.mem_cons_of_mem x (ih hu)

/-- C4: over any call sequence of `Component<T>::GetId` (type tags listed in
call order) whose distinct types stay within the 32-bit counter's range —
true of every sequence a process can produce, since each distinct type is a
template instantiation in the binary — the type first requested earlier gets
the strictly smaller identifier, repeated calls for a type return the same
identifier also after arbitrary further calls (no range condition on the
continuation: a latched constant is never revisited), distinct types get
distinct identifiers, and every identifier is the type's rank in first-call
order — a single shared sequence starting at 0. -/
theorem getId_first_call_order (L : List Nat)
    (hL : (firstCalls L).length < 2 ^ 32) :
    (∀ A B, A ∈ L → B ∈ L → L.indexOf A < L.indexOf B →
      idAfter L A < idAfter L B) ∧
    (∀ t M, t ∈ L → idAfter (L ++ M) t = idAfter L t) ∧
    (∀ A B, A ∈ L → B ∈ L → A ≠ B → idAfter L A ≠ idAfter L B) ∧
    (∀ t, t ∈ L → idAfter L t = (firstCalls L).indexOf t ∧
      idAfter L t < (firstCalls L).length) := by
  have hd : ∀ t, t ∈ L → idAfter L t = (firstCalls L).indexOf t ∧
      idAfter L t < (firstCalls L).length := by
    intro t ht
    have hmem : t ∈ firstCalls L := (mem_firstCalls L t).mpr ht
    rw [idAfter_eq L t hL, if_pos hmem]
    exact ⟨rfl, List.indexOf_lt_length.mpr hmem⟩
  refine ⟨?_, ?_, ?_, hd⟩
  · intro A B hA hB hAB
    obtain ⟨P, R, hPR, hAP, hBP⟩ : ∃ P R, P ++ R = L ∧ A ∈ P ∧ B ∉ P := by
      refine ⟨L.take (L.indexOf A + 1), L.drop (L.indexOf A + 1),
        List.take_append_drop _ L, mem_take_self L hA, ?_⟩
      intro hmem
      have := indexOf_lt_of_mem_take L (L.indexOf A + 1) hmem
      omega
    have hAFP : A ∈ firstCalls P := (mem_firstCalls _ A).mpr hAP
    have hBFP : B ∉ firstCalls P := fun hmem => hBP ((mem_firstCalls _ B).mp hmem)
    obtain ⟨G, hG⟩ := extendFirsts_prefix R (firstCalls P)
    have hFL : firstCalls L = firstCalls P ++ G := by
      rw [← hPR]
      show extendFirsts [] (P ++ R) = firstCalls P ++ G
      rw [extendFirsts_append]
      exact hG
    have hIA : (firstCalls L).indexOf A = (firstCalls P).indexOf A := by
      rw [hFL]
      exact List.indexOf_append_of_mem hAFP
    have hIB : (firstCalls L).indexOf B =
        (firstCalls P).length + G.indexOf B := by
      rw [hFL]
      exact List.indexOf_append_of_not_mem hBFP
    have hIA2 : (firstCalls P).indexOf A < (firstCalls P).length :=
      List.indexOf_lt_length.mpr hAFP
    rw [(hd A hA).1, (hd B hB).1, hIA, hIB]
    omega
  · intro t M ht
    have hGood := run_good L hL
    have hmem : t ∈ firstCalls L := (mem_firstCalls L t).mpr ht
    have hfind : (IdState.run L).assigned.find? (fun p => p.1 == t) =
        some (t, (firstCalls L).indexOf t) := by
      rw [hGood.2 t, if_pos hmem]
    have hrunM : IdState.run (L ++ M) = IdState.runFrom (IdState.run L) M :=
      List.foldl_append _ _ L M
    obtain ⟨G, hG⟩ := assigned_prefix M (IdState.run L)
    have hfind2 : (IdState.run (L ++ M)).assigned.find? (fun p => p.1 == t) =
        some (t, (firstCalls L).indexOf t) := by
      rw [hrunM, hG, List.find?_append, hfind, Option.or_some]
    show ((IdState.run (L ++ M)).GetId t).2 = ((IdState.run L).GetId t).2
    unfold IdState.GetId
    rw [hfind2, hfind]
  · intro A B hA hB hne hEq
    have hA2 : A ∈ firstCalls L := (mem_firstCalls L A).mpr hA
    have hB2 : B ∈ firstCalls L := (mem_firstCalls L B).mpr hB
    rw [(hd A hA).1, (hd B hB).1] at hEq
    exact hne ((List.indexOf_inj hA2 hB2).mp hEq)

/-- Witness for C4: a concrete call sequence (type 5 twice, then type 7),
instantiating every part of the first-call-order theorem. -/
theorem getId_first_call_order_witness :
    ((firstCalls [5, 5, 7]).length < 2 ^ 32 ∧ 5 ∈ [5, 5, 7] ∧ 7 ∈ [5, 5, 7] ∧
      [5, 5, 7].indexOf 5 < [5, 5, 7].indexOf 7) ∧
    idAfter [5, 5, 7] 5 < idAfter [5, 5, 7] 7 ∧
    idAfter ([5, 5, 7] ++ [9]) 5 = idAfter [5, 5, 7] 5 ∧
    idAfter [5, 5, 7] 5 ≠ idAfter [5, 5, 7] 7 ∧
    idAfter [5, 5, 7] 5 = (firstCalls [5, 5, 7]).indexOf 5 :=
  ⟨⟨by decide, by decide, by decide, by decide⟩,
   (getId_first_call_order [5, 5, 7] (by decide)).1 5 7
     (by decide) (by decide) (by decide),
   (getId_first_call_order [5, 5, 7] (by decide)).2.1 5 [9] (by decide),
   (getId_first_call_order [5, 5, 7] (by decide)).2.2.1 5 7
     (by decide) (by decide) (by decide),
   ((getId_first_call_order [5, 5, 7] (by decide)).2.2.2 5 (by decide)).1⟩

/-- C8: when at most `MAX_COMPONENTS` (128) distinct component types are
ever requested, every identifier `Component<T>::GetId` returns is below 128,
so every `std::bitset` position used by `RequireComponent`, `AddComponent`,
`RemoveComponent` and `HasComponent` (which pass such an identifier to
`set`/`test`) is within the fixed bitset width (the operations are defined,
`isSome`). -/
theorem getId_capacity_bound (L : List Nat)
    (hcap : (firstCalls L).length ≤ MAX_COMPONENTS) :
    ∀ t, t ∈ L →
      idAfter L t < MAX_COMPONENTS ∧
      (∀ s : Signature, ∀ b : Bool,
        (Signature.setBit s (idAfter L t) b).isSome = true) ∧
      (∀ s : Signature, (Signature.test s (idAfter L t)).isSome = true) ∧
      (∀ sys : System, (sys.RequireComponent (idAfter L t)).isSome = true) := by
  intro t ht
  have hL : (firstCalls L).length < 2 ^ 32 :=
    lt_of_le_of_lt hcap (by decide)
  have hmem : t ∈ firstCalls L := (mem_firstCalls L t).mpr ht
  have h1 : idAfter L t < MAX_COMPONENTS := by
    rw [idAfter_eq L t hL, if_pos hmem]
    exact lt_of_lt_of_le (List.indexOf_lt_length.mpr hmem) hcap
  refine ⟨h1, ?_, ?_, ?_⟩
  · intro s b
    simp [Signature.setBit, h1]
  · intro s
    simp [Signature.test, h1]
  · intro sys
    simp [System.RequireComponent, Signature.setBit, h1]

/-- Witness for C8: a concrete call sequence with two distinct types,
instantiating the capacity theorem. -/
theorem getId_capacity_bound_witness :
    ((firstCalls [3, 4, 3]).length ≤ MAX_COMPONENTS) ∧
    (idAfter [3, 4, 3] 4 < MAX_COMPONENTS ∧
     (∀ s : Signature, ∀ b : Bool,
       (Signature.setBit s (idAfter [3, 4, 3] 4) b).isSome = true) ∧
     (∀ s : Signature, (Signature.test s (idAfter [3, 4, 3] 4)).isSome = true) ∧
     (∀ sys : System,
       (sys.RequireComponent (idAfter [3, 4, 3] 4)).isSome = true)) :=
  ⟨by decide, getId_capacity_bound [3, 4, 3] (by decide) 4 (by decide)⟩

/-- C10: `Entity` stores a 64-bit identifier while `GetId()` returns it as a
32-bit `unsigned int`: construction truncates modulo `2 ^ 64` and `GetId`
modulo `2 ^ 32`, so entities whose identifiers differ by `2 ^ 32` are
distinct under `operator==` / ordered by `operator<` and `operator>` (full
64-bit comparison) yet share a `GetId`; `AddComponent` (which indexes pools
and the signature table by `GetId`) on the entity with identifier `2 ^ 32`
therefore stores the value in slot 0 and makes `HasComponent` true for the
distinct entity 0. -/
theorem entity_id_truncation :
    (∀ n : Nat, (Entity.make n).GetId = n % 2 ^ 64 % 2 ^ 32) ∧
    (∀ a b : Nat, Entity.eqOp (Entity.make a) (Entity.make b) =
      (a % 2 ^ 64 == b % 2 ^ 64)) ∧
    Entity.eqOp (Entity.make (2 ^ 32)) (Entity.make 0) = false ∧
    Entity.ltOp (Entity.make 0) (Entity.make (2 ^ 32)) = true ∧
    Entity.gtOp (Entity.make (2 ^ 32)) (Entity.make 0) = true ∧
    (Entity.make (2 ^ 32)).GetId = (Entity.make 0).GetId ∧
    (Registry.AddComponent c10reg 0 (Entity.make (2 ^ 32)) 42).isSome = true ∧
    c10after.HasComponent 0 (Entity.make 0) = some true ∧
    ((c10after.componentPools.getD 0 none).getD (Pool.create 0)).Get 0 = some 42 :=
  ⟨fun n => rfl, fun a b => rfl, by decide, by decide, by decide, by decide,
   by decide, by decide, by decide⟩
